import Mathlib

/-!
The demo handler of the custom packet channel (custom_packets_demo.cpp).

The source file holds one class, `CustomPacketsDemoHandler`, with one callback
(`OnCustomPacketReceive`) and two private handlers (`HandlePing`, `HandleEcho`).
Everything the handlers call (`CustomPacketRead`, `CustomPacketWrite`,
`CreateCustomPacket`, `SendCustomPacket`, `TC_LOG_INFO`, `time`) belongs to the host.

The embedding passes the host explicitly: a `Host` value carries the clock reading and
the trace of host calls made so far, in program order.  The handlers are functions
`Host → ... → Host`.  Unsigned 32-bit values are `Nat` reduced modulo `2^32`,
the clock (`time_t`) is an `Int`.

The handlers are given twice.  In the first form every read returns a value and the read
view is a parameter.  In the second form (`Throwing`) a read either returns a value or
raises a decode error, which leaves the callback uncaught, as the source has no
`try`/`catch`.  Both forms agree whenever the reads return.
-/

namespace CustomPacketsDemo

/-! Opcodes (`enum CustomPacketOpcodes`) -/

/-- Client to server: ping. -/
def CYCM_PING : Nat := 1001
/-- Client to server: echo. -/
def CYCM_ECHO : Nat := 1002
/-- Server to client: pong. -/
def CYSM_PONG : Nat := 2001
/-- Server to client: echo response. -/
def CYSM_ECHO_RESPONSE : Nat := 2002

/-! Host collaborators -/

/-- Modelled from the spec: `Player.h` is not part of the sources; the "connected-client
identity" the callback receives, with the name `GetName` returns. -/
structure Player where
  guid : Nat
  name : String
  deriving DecidableEq, Repr

/-- The accessor `player->GetName()`. -/
def Player.GetName (player : Player) : String := player.name

/-- One field written into an outbound packet. -/
inductive Field where
  | u32 (v : Nat)
  | str (s : String)
  deriving DecidableEq, Repr

/-- Modelled from the spec: `CustomPacketWrite.h` is not part of the sources; the
"outbound packet buffer": the opcode it was created with and the fields written so far,
oldest first. -/
structure CustomPacketWrite where
  opcode : Nat
  fields : List Field
  deriving DecidableEq, Repr

/-- The call `response.Write<uint32>(v)`: the argument is converted to `uint32`
(reduction modulo `2^32`) and appended. -/
def CustomPacketWrite.Write_uint32 (w : CustomPacketWrite) (v : Int) : CustomPacketWrite :=
  { w with fields := w.fields ++ [Field.u32 (v % 4294967296).toNat] }

/-- The call `response.WriteString(s)`: the string is appended. -/
def CustomPacketWrite.WriteString (w : CustomPacketWrite) (s : String) : CustomPacketWrite :=
  { w with fields := w.fields ++ [Field.str s] }

/-- The read view handed to the callback (`CustomPacketRead.h` is not part of the
sources), for calls whose reads return: what each of the two reads used by the handlers
returns for the argument it is given.  The handlers are parametric in it. -/
structure CustomPacketRead where
  Read_uint32 : Nat → Nat
  ReadString : String → String

/-- An argument of a log call. -/
inductive LogArg where
  | str (s : String)
  | u32 (v : Nat)
  deriving DecidableEq, Repr

/-- A call into the host, as observed from outside the handler. -/
inductive Event where
  | read_uint32 (arg : Nat)
  | readString (dflt : String)
  | log (filter : String) (fmt : String) (args : List LogArg)
  | create (opcode : Nat)
  | send (player : Player) (packet : CustomPacketWrite)
  deriving DecidableEq, Repr

/-- The host as the handler sees it: the value `time(nullptr)` returns and the calls made
so far, oldest first. -/
structure Host where
  now : Int
  trace : List Event
  deriving DecidableEq, Repr

/-- Append one call to the trace. -/
def Host.record (h : Host) (e : Event) : Host :=
  { h with trace := h.trace ++ [e] }

/-- The call `packet->Read<uint32>(arg)`, bound to a `uint32` variable. -/
def Read_uint32 (h : Host) (packet : CustomPacketRead) (arg : Nat) : Nat × Host :=
  (packet.Read_uint32 arg % 4294967296, h.record (Event.read_uint32 arg))

/-- The call `packet->ReadString(dflt)`. -/
def ReadString (h : Host) (packet : CustomPacketRead) (dflt : String) : String × Host :=
  (packet.ReadString dflt, h.record (Event.readString dflt))

/-- The call `TC_LOG_INFO(filter, fmt, args...)`. -/
def TC_LOG_INFO (h : Host) (filter fmt : String) (args : List LogArg) : Host :=
  h.record (Event.log filter fmt args)

/-- Modelled from the spec: `CustomPacketHandler.h` is not part of the sources;
`createMessage(opcode: uint16) -> writer`, a fresh writer with no field. -/
def CreateCustomPacket (h : Host) (opcode : Nat) : CustomPacketWrite × Host :=
  ({ opcode := opcode % 65536, fields := [] }, h.record (Event.create (opcode % 65536)))

/-- Modelled from the spec: `CustomPacketHandler.h` is not part of the sources;
`send(clientIdentity, writer)` hands the packet to the host. -/
def SendCustomPacket (h : Host) (player : Player) (packet : CustomPacketWrite) : Host :=
  h.record (Event.send player packet)

/-- The call `time(nullptr)`. -/
def time (h : Host) : Int := h.now

/-! The handler (`class CustomPacketsDemoHandler`) -/

/-- The private method `HandlePing`. -/
def HandlePing (h : Host) (player : Player) (packet : CustomPacketRead) : Host :=
  let (clientTimestamp, h) := Read_uint32 h packet 0
  let h := TC_LOG_INFO h "custom.packets" "Player \x7b\x7d sent PING with timestamp \x7b\x7d"
    [LogArg.str player.GetName, LogArg.u32 clientTimestamp]
  let (response, h) := CreateCustomPacket h CYSM_PONG
  let response := response.Write_uint32 (clientTimestamp : Int)
  let response := response.Write_uint32 (time h)
  let response := response.WriteString "Pong from TrinityCore!"
  SendCustomPacket h player response

/-- The private method `HandleEcho`. -/
def HandleEcho (h : Host) (player : Player) (packet : CustomPacketRead) : Host :=
  let (message, h) := ReadString h packet ""
  let h := TC_LOG_INFO h "custom.packets" "Player \x7b\x7d sent ECHO: \x7b\x7d"
    [LogArg.str player.GetName, LogArg.str message]
  let (response, h) := CreateCustomPacket h CYSM_ECHO_RESPONSE
  let response := response.WriteString ("Server received: " ++ message)
  SendCustomPacket h player response

/-- The callback `OnCustomPacketReceive`: a `switch` on the opcode with two cases and no
default. -/
def OnCustomPacketReceive (h : Host) (player : Player) (opcode : Nat)
    (packet : CustomPacketRead) : Host :=
  if opcode = CYCM_PING then HandlePing h player packet
  else if opcode = CYCM_ECHO then HandleEcho h player packet
  else h

/-! Observations on traces -/

/-- The calls a run added to the trace. -/
def added (h h' : Host) : List Event := h'.trace.drop h.trace.length

/-- The log lines of a trace, in order. -/
def logsOf : List Event → List (String × String × List LogArg)
  | [] => []
  | Event.log f m a :: es => (f, m, a) :: logsOf es
  | _ :: es => logsOf es

/-- The packets sent in a trace, with their addressee, in order. -/
def sendsOf : List Event → List (Player × CustomPacketWrite)
  | [] => []
  | Event.send p w :: es => (p, w) :: sendsOf es
  | _ :: es => sendsOf es

/-- The opcodes of the packets created in a trace, in order. -/
def createsOf : List Event → List Nat
  | [] => []
  | Event.create op :: es => op :: createsOf es
  | _ :: es => createsOf es

/-- The payload reads of a trace, in order. -/
def readsOf : List Event → List Event
  | [] => []
  | Event.read_uint32 d :: es => Event.read_uint32 d :: readsOf es
  | Event.readString d :: es => Event.readString d :: readsOf es
  | _ :: es => readsOf es

/-! The handler when a read can fail -/

/-- Modelled from the spec: `CustomPacketRead.h` is not part of the sources; the "decode
error" with which a read of a truncated payload fails. -/
inductive DecodeError where
  | truncated
  deriving DecidableEq, Repr

/-- How a call of the callback ends: the host after the call and, when a read failed, the
decode error that left the callback uncaught. -/
structure Outcome where
  host : Host
  raised : Option DecodeError
  deriving DecidableEq, Repr

namespace Throwing

/-- The read view handed to the callback (`CustomPacketRead.h` is not part of the
sources) when a read can fail: each read returns a value or raises a decode error.  The
handlers are parametric in it. -/
structure CustomPacketRead where
  Read_uint32 : Nat → Except DecodeError Nat
  ReadString : String → Except DecodeError String

/-- The call `packet->Read<uint32>(arg)`, bound to a `uint32` variable when it returns. -/
def Read_uint32 (h : Host) (packet : CustomPacketRead) (arg : Nat) :
    Except DecodeError Nat × Host :=
  (match packet.Read_uint32 arg with
    | Except.ok v => Except.ok (v % 4294967296)
    | Except.error e => Except.error e,
   h.record (Event.read_uint32 arg))

/-- The call `packet->ReadString(dflt)`. -/
def ReadString (h : Host) (packet : CustomPacketRead) (dflt : String) :
    Except DecodeError String × Host :=
  (packet.ReadString dflt, h.record (Event.readString dflt))

/-- The private method `HandlePing`: an error raised by the read ends the call there. -/
def HandlePing (h : Host) (player : Player) (packet : CustomPacketRead) : Outcome :=
  match Read_uint32 h packet 0 with
  | (Except.error e, h) => { host := h, raised := some e }
  | (Except.ok clientTimestamp, h) =>
    let h := TC_LOG_INFO h "custom.packets"
      "Player \x7b\x7d sent PING with timestamp \x7b\x7d"
      [LogArg.str player.GetName, LogArg.u32 clientTimestamp]
    let (response, h) := CreateCustomPacket h CYSM_PONG
    let response := response.Write_uint32 (clientTimestamp : Int)
    let response := response.Write_uint32 (time h)
    let response := response.WriteString "Pong from TrinityCore!"
    { host := SendCustomPacket h player response, raised := none }

/-- The private method `HandleEcho`: an error raised by the read ends the call there. -/
def HandleEcho (h : Host) (player : Player) (packet : CustomPacketRead) : Outcome :=
  match ReadString h packet "" with
  | (Except.error e, h) => { host := h, raised := some e }
  | (Except.ok message, h) =>
    let h := TC_LOG_INFO h "custom.packets" "Player \x7b\x7d sent ECHO: \x7b\x7d"
      [LogArg.str player.GetName, LogArg.str message]
    let (response, h) := CreateCustomPacket h CYSM_ECHO_RESPONSE
    let response := response.WriteString ("Server received: " ++ message)
    { host := SendCustomPacket h player response, raised := none }

/-- The callback `OnCustomPacketReceive`: a `switch` on the opcode with two cases and no
default; nothing is caught. -/
def OnCustomPacketReceive (h : Host) (player : Player) (opcode : Nat)
    (packet : CustomPacketRead) : Outcome :=
  if opcode = CYCM_PING then HandlePing h player packet
  else if opcode = CYCM_ECHO then HandleEcho h player packet
  else { host := h, raised := none }

end Throwing

/-! Payloads -/

/-- Modelled from the spec: `CustomPacketRead.h` is not part of the sources; a payload as
the reads see it: `readable` is the number of readable bytes, `u32At` gives the unsigned
integer encoded by the four bytes at a byte offset, `str` is the length-prefixed string
(`none` when it is absent or malformed). -/
structure Payload where
  readable : Nat
  u32At : Nat → Nat
  str : Option String

/-- Modelled from the spec: `CustomPacketRead.h` is not part of the sources; the read
view over a payload.  The integer read is "read fixed-width integer at byte offset" and,
when fewer than 4 bytes are readable from the offset, "fails with decode error"; the
string read is "read length-prefixed string with default fallback". -/
def Payload.reader (pl : Payload) : Throwing.CustomPacketRead where
  Read_uint32 offset :=
    if offset + 4 ≤ pl.readable then Except.ok (pl.u32At offset)
    else Except.error DecodeError.truncated
  ReadString dflt := Except.ok (pl.str.getD dflt)

/-! Concrete inputs used to instantiate the theorems -/

/-- A connected player. -/
def alice : Player := { guid := 1, name := "Alice" }

/-- A host whose clock reads 1700000000 and whose trace is empty. -/
def host0 : Host := { now := 1700000000, trace := [] }

/-- A host whose clock reads `2^32` and whose trace is empty. -/
def hostWrapped : Host := { now := 4294967296, trace := [] }

/-- A read view whose integer read returns 7. -/
def pingReader : CustomPacketRead := { Read_uint32 := fun _ => 7, ReadString := fun _ => "" }

/-- A read view whose string read returns "hi". -/
def echoReader : CustomPacketRead := { Read_uint32 := fun _ => 0, ReadString := fun _ => "hi" }

/-- A read view whose string read returns "yo". -/
def echoReader2 : CustomPacketRead := { Read_uint32 := fun _ => 0, ReadString := fun _ => "yo" }

/-- A truncated ping payload: three readable bytes. -/
def shortPayload : Payload := { readable := 3, u32At := fun _ => 7, str := none }

/-- A payload with nothing to decode. -/
def emptyPayload : Payload := { readable := 0, u32At := fun _ => 0, str := none }

/-! Trace of one call -/

theorem HandlePing_trace (h : Host) (p : Player) (pkt : CustomPacketRead) :
    (HandlePing h p pkt).trace = h.trace ++
      [Event.read_uint32 0,
       Event.log "custom.packets" "Player \x7b\x7d sent PING with timestamp \x7b\x7d"
         [LogArg.str p.name, LogArg.u32 (pkt.Read_uint32 0 % 4294967296)],
       Event.create 2001,
       Event.send p ⟨2001, [Field.u32 (pkt.Read_uint32 0 % 4294967296),
         Field.u32 (h.now % 4294967296).toNat, Field.str "Pong from TrinityCore!"]⟩] := by
  simp [HandlePing, Read_uint32, TC_LOG_INFO, CreateCustomPacket, SendCustomPacket, time,
    Host.record, CustomPacketWrite.Write_uint32, CustomPacketWrite.WriteString,
    Player.GetName, CYSM_PONG]
  omega

theorem HandleEcho_trace (h : Host) (p : Player) (pkt : CustomPacketRead) :
    (HandleEcho h p pkt).trace = h.trace ++
      [Event.readString "",
       Event.log "custom.packets" "Player \x7b\x7d sent ECHO: \x7b\x7d"
         [LogArg.str p.name, LogArg.str (pkt.ReadString "")],
       Event.create 2002,
       Event.send p ⟨2002, [Field.str ("Server received: " ++ pkt.ReadString "")]⟩] := by
  simp [HandleEcho, ReadString, TC_LOG_INFO, CreateCustomPacket, SendCustomPacket,
    Host.record, CustomPacketWrite.WriteString, Player.GetName, CYSM_ECHO_RESPONSE]

theorem HandlePing_now (h : Host) (p : Player) (pkt : CustomPacketRead) :
    (HandlePing h p pkt).now = h.now := by
  simp [HandlePing, Read_uint32, TC_LOG_INFO, CreateCustomPacket, SendCustomPacket,
    Host.record]

theorem HandleEcho_now (h : Host) (p : Player) (pkt : CustomPacketRead) :
    (HandleEcho h p pkt).now = h.now := by
  simp [HandleEcho, ReadString, TC_LOG_INFO, CreateCustomPacket, SendCustomPacket,
    Host.record]

theorem added_append (h h' : Host) (l : List Event) (e : h'.trace = h.trace ++ l) :
    added h h' = l := by
  simp [added, e]

theorem added_self (h : Host) : added h h = [] := by
  simp [added]

theorem added_ping (h : Host) (p : Player) (pkt : CustomPacketRead) :
    added h (OnCustomPacketReceive h p 1001 pkt) =
      [Event.read_uint32 0,
       Event.log "custom.packets" "Player \x7b\x7d sent PING with timestamp \x7b\x7d"
         [LogArg.str p.name, LogArg.u32 (pkt.Read_uint32 0 % 4294967296)],
       Event.create 2001,
       Event.send p ⟨2001, [Field.u32 (pkt.Read_uint32 0 % 4294967296),
         Field.u32 (h.now % 4294967296).toNat, Field.str "Pong from TrinityCore!"]⟩] := by
  apply added_append
  simp only [OnCustomPacketReceive, CYCM_PING, if_true]
  exact HandlePing_trace h p pkt

theorem added_echo (h : Host) (p : Player) (pkt : CustomPacketRead) :
    added h (OnCustomPacketReceive h p 1002 pkt) =
      [Event.readString "",
       Event.log "custom.packets" "Player \x7b\x7d sent ECHO: \x7b\x7d"
         [LogArg.str p.name, LogArg.str (pkt.ReadString "")],
       Event.create 2002,
       Event.send p ⟨2002, [Field.str ("Server received: " ++ pkt.ReadString "")]⟩] := by
  apply added_append
  have e : OnCustomPacketReceive h p 1002 pkt = HandleEcho h p pkt := by
    simp [OnCustomPacketReceive, CYCM_PING, CYCM_ECHO]
  rw [e]
  exact HandleEcho_trace h p pkt

theorem receive_other (h : Host) (p : Player) (opcode : Nat) (pkt : CustomPacketRead)
    (h1 : opcode ≠ 1001) (h2 : opcode ≠ 1002) :
    OnCustomPacketReceive h p opcode pkt = h := by
  simp [OnCustomPacketReceive, CYCM_PING, CYCM_ECHO, h1, h2]

theorem receive_now (h : Host) (p : Player) (opcode : Nat) (pkt : CustomPacketRead) :
    (OnCustomPacketReceive h p opcode pkt).now = h.now := by
  unfold OnCustomPacketReceive
  split
  · exact HandlePing_now h p pkt
  · split
    · exact HandleEcho_now h p pkt
    · rfl

theorem receive_trace (h : Host) (p : Player) (opcode : Nat) (pkt : CustomPacketRead) :
    (OnCustomPacketReceive h p opcode pkt).trace =
      h.trace ++ added h (OnCustomPacketReceive h p opcode pkt) := by
  by_cases h1 : opcode = 1001
  · subst h1
    rw [added_ping]
    simp only [OnCustomPacketReceive, CYCM_PING, if_true]
    exact HandlePing_trace h p pkt
  · by_cases h2 : opcode = 1002
    · subst h2
      rw [added_echo]
      have e : OnCustomPacketReceive h p 1002 pkt = HandleEcho h p pkt := by
        simp [OnCustomPacketReceive, CYCM_PING, CYCM_ECHO]
      rw [e]
      exact HandleEcho_trace h p pkt
    · rw [receive_other h p opcode pkt h1 h2, added_self]
      simp

/-! Ping (opcode 1001) -/

/-- C1: a ping whose `uint32` read yields `T` creates one message with opcode 2001 and
sends to the player that message, whose fields are exactly `T`, the clock reading of the
call converted to `uint32`, and the string "Pong from TrinityCore!". -/
theorem ping_builds_pong (h : Host) (p : Player) (pkt : CustomPacketRead) (T : Nat)
    (hT : T < 4294967296) (hr : pkt.Read_uint32 0 = T) :
    createsOf (added h (OnCustomPacketReceive h p 1001 pkt)) = [2001] ∧
    sendsOf (added h (OnCustomPacketReceive h p 1001 pkt)) =
      [(p, ⟨2001, [Field.u32 T, Field.u32 (time h % 4294967296).toNat,
        Field.str "Pong from TrinityCore!"]⟩)] := by
  rw [added_ping, hr, Nat.mod_eq_of_lt hT]
  simp [createsOf, sendsOf, time]

theorem ping_builds_pong_witness :
    (7 : Nat) < 4294967296 ∧ pingReader.Read_uint32 0 = 7 ∧
    createsOf (added host0 (OnCustomPacketReceive host0 alice 1001 pingReader))
      = [2001] ∧
    sendsOf (added host0 (OnCustomPacketReceive host0 alice 1001 pingReader)) =
      [(alice, ⟨2001, [Field.u32 7, Field.u32 (time host0 % 4294967296).toNat,
        Field.str "Pong from TrinityCore!"]⟩)] :=
  ⟨by decide, rfl, ping_builds_pong host0 alice pingReader 7 (by decide) rfl⟩

/-! Echo (opcode 1002) -/

/-- C2: an echo whose string read yields `S` creates one message with opcode 2002 and
sends to the player that message, whose only field is the string "Server received: "
followed by `S`; for the empty `S` the field is exactly "Server received: ". -/
theorem echo_builds_response (h : Host) (p : Player) (pkt : CustomPacketRead) (S : String)
    (hr : pkt.ReadString "" = S) :
    createsOf (added h (OnCustomPacketReceive h p 1002 pkt)) = [2002] ∧
    sendsOf (added h (OnCustomPacketReceive h p 1002 pkt)) =
      [(p, ⟨2002, [Field.str ("Server received: " ++ S)]⟩)] ∧
    (S = "" → sendsOf (added h (OnCustomPacketReceive h p 1002 pkt)) =
      [(p, ⟨2002, [Field.str "Server received: "]⟩)]) := by
  rw [added_echo, hr]
  refine ⟨by simp [createsOf], by simp [sendsOf], ?_⟩
  intro hS
  subst hS
  simp [sendsOf]

theorem echo_builds_response_witness :
    echoReader.ReadString "" = "hi" ∧
    createsOf (added host0 (OnCustomPacketReceive host0 alice 1002 echoReader))
      = [2002] ∧
    sendsOf (added host0 (OnCustomPacketReceive host0 alice 1002 echoReader)) =
      [(alice, ⟨2002, [Field.str ("Server received: " ++ "hi")]⟩)] ∧
    ("hi" = "" →
      sendsOf (added host0 (OnCustomPacketReceive host0 alice 1002 echoReader)) =
        [(alice, ⟨2002, [Field.str "Server received: "]⟩)]) :=
  ⟨rfl, echo_builds_response host0 alice echoReader "hi" rfl⟩

/-- C5: two echo calls in a row, the first reading `S1` and the second `S2`, add exactly
two sends to the trace, in that order, the first carrying "Server received: " followed by
`S1` and the second "Server received: " followed by `S2` and nothing else; each call
creates its own message. -/
theorem echo_twice_independent (h : Host) (p1 p2 : Player) (pkt1 pkt2 : CustomPacketRead)
    (S1 S2 : String) (hr1 : pkt1.ReadString "" = S1) (hr2 : pkt2.ReadString "" = S2) :
    sendsOf (added h (OnCustomPacketReceive (OnCustomPacketReceive h p1 1002 pkt1)
        p2 1002 pkt2)) =
      [(p1, ⟨2002, [Field.str ("Server received: " ++ S1)]⟩),
       (p2, ⟨2002, [Field.str ("Server received: " ++ S2)]⟩)] ∧
    createsOf (added h (OnCustomPacketReceive (OnCustomPacketReceive h p1 1002 pkt1)
        p2 1002 pkt2)) = [2002, 2002] := by
  have e : added h (OnCustomPacketReceive (OnCustomPacketReceive h p1 1002 pkt1)
      p2 1002 pkt2) =
      added h (OnCustomPacketReceive h p1 1002 pkt1) ++
        added (OnCustomPacketReceive h p1 1002 pkt1)
          (OnCustomPacketReceive (OnCustomPacketReceive h p1 1002 pkt1) p2 1002 pkt2) := by
    apply added_append
    rw [receive_trace (OnCustomPacketReceive h p1 1002 pkt1) p2 1002 pkt2,
      receive_trace h p1 1002 pkt1, List.append_assoc]
  rw [e, added_echo, added_echo, hr1, hr2]
  simp [sendsOf, createsOf]

theorem echo_twice_independent_witness :
    echoReader.ReadString "" = "hi" ∧ echoReader2.ReadString "" = "yo" ∧
    sendsOf (added host0 (OnCustomPacketReceive
        (OnCustomPacketReceive host0 alice 1002 echoReader)
        alice 1002 echoReader2)) =
      [(alice, ⟨2002, [Field.str ("Server received: " ++ "hi")]⟩),
       (alice, ⟨2002, [Field.str ("Server received: " ++ "yo")]⟩)] ∧
    createsOf (added host0 (OnCustomPacketReceive
        (OnCustomPacketReceive host0 alice 1002 echoReader)
        alice 1002 echoReader2)) = [2002, 2002] :=
  ⟨rfl, rfl, echo_twice_independent host0 alice alice echoReader
    echoReader2 "hi" "yo" rfl rfl⟩

/-! Other opcodes -/

/-- C3: for a 16-bit opcode other than 1001 and 1002 the callback returns the host as it
found it: nothing is added to the trace, so there is no payload read, no message created,
no send and no log line. -/
theorem other_opcode_no_action (h : Host) (p : Player) (opcode : Nat)
    (pkt : CustomPacketRead) (h16 : opcode < 65536) (h1 : opcode ≠ 1001)
    (h2 : opcode ≠ 1002) :
    OnCustomPacketReceive h p opcode pkt = h ∧
    added h (OnCustomPacketReceive h p opcode pkt) = [] ∧
    readsOf (added h (OnCustomPacketReceive h p opcode pkt)) = [] ∧
    createsOf (added h (OnCustomPacketReceive h p opcode pkt)) = [] ∧
    sendsOf (added h (OnCustomPacketReceive h p opcode pkt)) = [] ∧
    logsOf (added h (OnCustomPacketReceive h p opcode pkt)) = [] := by
  have _ := h16
  rw [receive_other h p opcode pkt h1 h2, added_self]
  simp [readsOf, createsOf, sendsOf, logsOf]

theorem other_opcode_no_action_witness :
    (2001 : Nat) < 65536 ∧ (2001 : Nat) ≠ 1001 ∧ (2001 : Nat) ≠ 1002 ∧
    (OnCustomPacketReceive host0 alice 2001 pingReader = host0 ∧
    added host0 (OnCustomPacketReceive host0 alice 2001 pingReader) = [] ∧
    readsOf (added host0 (OnCustomPacketReceive host0 alice 2001 pingReader)) = [] ∧
    createsOf (added host0 (OnCustomPacketReceive host0 alice 2001 pingReader)) = [] ∧
    sendsOf (added host0 (OnCustomPacketReceive host0 alice 2001 pingReader)) = [] ∧
    logsOf (added host0 (OnCustomPacketReceive host0 alice 2001 pingReader)) = []) :=
  ⟨by decide, by decide, by decide,
    other_opcode_no_action host0 alice 2001 pingReader (by decide) (by decide)
      (by decide)⟩

/-! Effects of a handled call -/

/-- C6: a call with opcode 1001 or 1002 keeps the clock and the earlier trace, and adds
exactly one log line and exactly one send; the log line comes before the send and its
arguments are the player's name and the value read (the timestamp for a ping, the string
for an echo). -/
theorem handled_one_log_one_send (h : Host) (p : Player) (opcode : Nat)
    (pkt : CustomPacketRead) (hop : opcode = 1001 ∨ opcode = 1002) :
    (OnCustomPacketReceive h p opcode pkt).now = h.now ∧
    (OnCustomPacketReceive h p opcode pkt).trace =
      h.trace ++ added h (OnCustomPacketReceive h p opcode pkt) ∧
    (logsOf (added h (OnCustomPacketReceive h p opcode pkt))).length = 1 ∧
    (sendsOf (added h (OnCustomPacketReceive h p opcode pkt))).length = 1 ∧
    ∃ pre mid post fmt msg,
      added h (OnCustomPacketReceive h p opcode pkt) =
        pre ++ [Event.log "custom.packets" fmt
          [LogArg.str p.GetName,
           if opcode = 1001 then LogArg.u32 (Read_uint32 h pkt 0).1
           else LogArg.str (ReadString h pkt "").1]] ++ mid ++ [Event.send p msg] ++ post := by
  refine ⟨receive_now h p opcode pkt, receive_trace h p opcode pkt, ?_⟩
  rcases hop with rfl | rfl
  · rw [added_ping]
    refine ⟨by simp [logsOf], by simp [sendsOf], ?_⟩
    exact ⟨[Event.read_uint32 0], [Event.create 2001], [],
      "Player \x7b\x7d sent PING with timestamp \x7b\x7d",
      ⟨2001, [Field.u32 (pkt.Read_uint32 0 % 4294967296),
        Field.u32 (h.now % 4294967296).toNat, Field.str "Pong from TrinityCore!"]⟩,
      by simp [Player.GetName, Read_uint32]⟩
  · rw [added_echo]
    refine ⟨by simp [logsOf], by simp [sendsOf], ?_⟩
    exact ⟨[Event.readString ""], [Event.create 2002], [],
      "Player \x7b\x7d sent ECHO: \x7b\x7d",
      ⟨2002, [Field.str ("Server received: " ++ pkt.ReadString "")]⟩,
      by simp [Player.GetName, ReadString]⟩

theorem handled_one_log_one_send_witness :
    ((1001 : Nat) = 1001 ∨ (1001 : Nat) = 1002) ∧
    ((OnCustomPacketReceive host0 alice 1001 pingReader).now = host0.now ∧
    (OnCustomPacketReceive host0 alice 1001 pingReader).trace =
      host0.trace ++ added host0 (OnCustomPacketReceive host0 alice 1001 pingReader) ∧
    (logsOf (added host0
      (OnCustomPacketReceive host0 alice 1001 pingReader))).length = 1 ∧
    (sendsOf (added host0
      (OnCustomPacketReceive host0 alice 1001 pingReader))).length = 1 ∧
    ∃ pre mid post fmt msg,
      added host0 (OnCustomPacketReceive host0 alice 1001 pingReader) =
        pre ++ [Event.log "custom.packets" fmt
          [LogArg.str alice.GetName,
           if (1001 : Nat) = 1001 then LogArg.u32 (Read_uint32 host0 pingReader 0).1
           else LogArg.str (ReadString host0 pingReader "").1]] ++ mid ++
          [Event.send alice msg] ++ post) :=
  ⟨Or.inl rfl, handled_one_log_one_send host0 alice 1001 pingReader (Or.inl rfl)⟩

/-! Addressee and opcode of the responses -/

/-- C9: every packet a call of the callback sends is addressed to the player the callback
was invoked with. -/
theorem response_addressed_to_caller (h : Host) (p : Player) (opcode : Nat)
    (pkt : CustomPacketRead) (s : Player × CustomPacketWrite)
    (hs : s ∈ sendsOf (added h (OnCustomPacketReceive h p opcode pkt))) :
    s.1 = p := by
  by_cases h1 : opcode = 1001
  · subst h1
    rw [added_ping] at hs
    simp [sendsOf] at hs
    simp [hs]
  · by_cases h2 : opcode = 1002
    · subst h2
      rw [added_echo] at hs
      simp [sendsOf] at hs
      simp [hs]
    · rw [receive_other h p opcode pkt h1 h2, added_self] at hs
      simp [sendsOf] at hs

theorem response_addressed_to_caller_witness :
    (alice, (⟨2002, [Field.str ("Server received: " ++ "hi")]⟩ : CustomPacketWrite)) ∈
      sendsOf (added host0 (OnCustomPacketReceive host0 alice 1002 echoReader)) ∧
    (alice, (⟨2002, [Field.str ("Server received: " ++ "hi")]⟩ : CustomPacketWrite)).1
      = alice :=
  have hm : (alice, (⟨2002, [Field.str ("Server received: " ++ "hi")]⟩ :
      CustomPacketWrite)) ∈
      sendsOf (added host0 (OnCustomPacketReceive host0 alice 1002 echoReader)) := by
    rw [added_echo]
    simp [sendsOf, echoReader]
  ⟨hm, response_addressed_to_caller host0 alice 1002 echoReader _ hm⟩

/-- C10: every message a call of the callback creates, and every message it sends, has
the inbound opcode plus 1000 as its opcode; that opcode is 2001 or 2002, is neither 1001
nor 1002, and the callback ignores a packet that carries it. -/
theorem response_opcode_is_server_origin (h : Host) (p : Player) (opcode : Nat)
    (pkt : CustomPacketRead) (op : Nat)
    (hop : op ∈ createsOf (added h (OnCustomPacketReceive h p opcode pkt)) ∨
      ∃ s ∈ sendsOf (added h (OnCustomPacketReceive h p opcode pkt)), s.2.opcode = op) :
    op = opcode + 1000 ∧ (op = 2001 ∨ op = 2002) ∧ op ≠ 1001 ∧ op ≠ 1002 ∧
    ∀ (h2 : Host) (p2 : Player) (pkt2 : CustomPacketRead),
      OnCustomPacketReceive h2 p2 op pkt2 = h2 := by
  have key : op = opcode + 1000 ∧ (op = 2001 ∨ op = 2002) := by
    by_cases h1 : opcode = 1001
    · subst h1
      rw [added_ping] at hop
      simp [createsOf, sendsOf] at hop
      omega
    · by_cases h2 : opcode = 1002
      · subst h2
        rw [added_echo] at hop
        simp [createsOf, sendsOf] at hop
        omega
      · rw [receive_other h p opcode pkt h1 h2, added_self] at hop
        simp [createsOf, sendsOf] at hop
  have n1 : op ≠ 1001 := by omega
  have n2 : op ≠ 1002 := by omega
  exact ⟨key.1, key.2, n1, n2, fun h2 p2 pkt2 => receive_other h2 p2 op pkt2 n1 n2⟩

theorem response_opcode_is_server_origin_witness :
    ((2001 : Nat) ∈ createsOf (added host0
        (OnCustomPacketReceive host0 alice 1001 pingReader)) ∨
      ∃ s ∈ sendsOf (added host0
        (OnCustomPacketReceive host0 alice 1001 pingReader)), s.2.opcode = 2001) ∧
    ((2001 : Nat) = 1001 + 1000 ∧ ((2001 : Nat) = 2001 ∨ (2001 : Nat) = 2002) ∧
      (2001 : Nat) ≠ 1001 ∧ (2001 : Nat) ≠ 1002 ∧
      ∀ (h2 : Host) (p2 : Player) (pkt2 : CustomPacketRead),
        OnCustomPacketReceive h2 p2 2001 pkt2 = h2) :=
  have hm : (2001 : Nat) ∈ createsOf (added host0
        (OnCustomPacketReceive host0 alice 1001 pingReader)) ∨
      ∃ s ∈ sendsOf (added host0
        (OnCustomPacketReceive host0 alice 1001 pingReader)), s.2.opcode = 2001 := by
    left
    rw [added_ping]
    simp [createsOf]
  ⟨hm, response_opcode_is_server_origin host0 alice 1001 pingReader 2001 hm⟩

/-! The server timestamp of the pong -/

/-- C7, counterexample: with the clock at `2^32` the pong carries the server timestamp 0,
which is smaller than the clock reading. -/
theorem pong_server_time_wraps :
    time hostWrapped = 4294967296 ∧
    sendsOf (added hostWrapped
      (OnCustomPacketReceive hostWrapped alice 1001 pingReader)) =
      [(alice, ⟨2001, [Field.u32 7, Field.u32 0, Field.str "Pong from TrinityCore!"]⟩)] ∧
    ¬ (time hostWrapped ≤ ((0 : Nat) : Int)) := by
  refine ⟨rfl, ?_, by simp [time, hostWrapped]⟩
  rw [added_ping]
  simp [sendsOf, hostWrapped, pingReader]

/-- C7, amended: when the clock reading is below `2^32`, the server timestamp of the pong
is the clock reading reduced modulo `2^32` and is greater than or equal to the clock
reading. -/
theorem pong_server_time_ge (h : Host) (p : Player) (pkt : CustomPacketRead)
    (hc : time h < 4294967296) :
    ∃ v : Nat,
      sendsOf (added h (OnCustomPacketReceive h p 1001 pkt)) =
        [(p, ⟨2001, [Field.u32 (pkt.Read_uint32 0 % 4294967296), Field.u32 v,
          Field.str "Pong from TrinityCore!"]⟩)] ∧
      (v : Int) = time h % 4294967296 ∧ time h ≤ (v : Int) := by
  refine ⟨(time h % 4294967296).toNat, ?_, ?_, ?_⟩
  · rw [added_ping]
    simp [sendsOf, time]
  · omega
  · omega

theorem pong_server_time_ge_witness :
    time host0 < 4294967296 ∧
    ∃ v : Nat,
      sendsOf (added host0 (OnCustomPacketReceive host0 alice 1001 pingReader)) =
        [(alice, ⟨2001, [Field.u32 (pingReader.Read_uint32 0 % 4294967296),
          Field.u32 v, Field.str "Pong from TrinityCore!"]⟩)] ∧
      (v : Int) = time host0 % 4294967296 ∧ time host0 ≤ (v : Int) :=
  ⟨by simp [time, host0],
    pong_server_time_ge host0 alice pingReader (by simp [time, host0])⟩

/-! The handler when a read can fail -/

theorem throwing_ping_raised (h : Host) (p : Player) (rd : Throwing.CustomPacketRead)
    (e : DecodeError) (hr : rd.Read_uint32 0 = Except.error e) :
    Throwing.OnCustomPacketReceive h p 1001 rd =
      { host := h.record (Event.read_uint32 0), raised := some e } := by
  simp [Throwing.OnCustomPacketReceive, CYCM_PING, Throwing.HandlePing,
    Throwing.Read_uint32, hr]

theorem throwing_ping_returned (h : Host) (p : Player) (rd : Throwing.CustomPacketRead)
    (pkt : CustomPacketRead) (hr : rd.Read_uint32 0 = Except.ok (pkt.Read_uint32 0)) :
    Throwing.OnCustomPacketReceive h p 1001 rd =
      { host := OnCustomPacketReceive h p 1001 pkt, raised := none } := by
  simp [Throwing.OnCustomPacketReceive, OnCustomPacketReceive, CYCM_PING,
    Throwing.HandlePing, HandlePing, Throwing.Read_uint32, Read_uint32, hr]

theorem throwing_echo_returned (h : Host) (p : Player) (rd : Throwing.CustomPacketRead)
    (pkt : CustomPacketRead) (hr : rd.ReadString "" = Except.ok (pkt.ReadString "")) :
    Throwing.OnCustomPacketReceive h p 1002 rd =
      { host := OnCustomPacketReceive h p 1002 pkt, raised := none } := by
  simp [Throwing.OnCustomPacketReceive, OnCustomPacketReceive, CYCM_PING, CYCM_ECHO,
    Throwing.HandleEcho, HandleEcho, Throwing.ReadString, ReadString, hr]

theorem throwing_other_returned (h : Host) (p : Player) (opcode : Nat)
    (rd : Throwing.CustomPacketRead) (pkt : CustomPacketRead)
    (h1 : opcode ≠ 1001) (h2 : opcode ≠ 1002) :
    Throwing.OnCustomPacketReceive h p opcode rd =
      { host := OnCustomPacketReceive h p opcode pkt, raised := none } := by
  simp [Throwing.OnCustomPacketReceive, OnCustomPacketReceive, CYCM_PING, CYCM_ECHO, h1, h2]

theorem complete_ping_sends_pong (h : Host) (p : Player) (pl : Payload)
    (hlong : 4 ≤ pl.readable) :
    (Throwing.OnCustomPacketReceive h p 1001 pl.reader).raised = none ∧
    sendsOf (added h (Throwing.OnCustomPacketReceive h p 1001 pl.reader).host) =
      [(p, ⟨2001, [Field.u32 (pl.u32At 0 % 4294967296),
        Field.u32 (time h % 4294967296).toNat, Field.str "Pong from TrinityCore!"]⟩)] := by
  have hr : pl.reader.Read_uint32 0 = Except.ok (pl.u32At 0) := by
    simp [Payload.reader, hlong]
  rw [throwing_ping_returned h p pl.reader ⟨fun _ => pl.u32At 0, fun d => d⟩ hr]
  refine ⟨rfl, ?_⟩
  show sendsOf (added h (OnCustomPacketReceive h p 1001 _)) = _
  rw [added_ping]
  simp [sendsOf, time]

/-- C4: for a ping whose payload has fewer than 4 readable bytes the integer read fails
with a decode error, the call ends with that error raised by the collaborator, and the
only thing added to the trace is the read: no log line, no message created, no pong
sent. -/
theorem truncated_ping_decode_error (h : Host) (p : Player) (pl : Payload)
    (hshort : pl.readable < 4) :
    pl.reader.Read_uint32 0 = Except.error DecodeError.truncated ∧
    (Throwing.OnCustomPacketReceive h p 1001 pl.reader).raised =
      some DecodeError.truncated ∧
    (Throwing.OnCustomPacketReceive h p 1001 pl.reader).host.now = h.now ∧
    added h (Throwing.OnCustomPacketReceive h p 1001 pl.reader).host =
      [Event.read_uint32 0] ∧
    logsOf (added h (Throwing.OnCustomPacketReceive h p 1001 pl.reader).host) = [] ∧
    createsOf (added h (Throwing.OnCustomPacketReceive h p 1001 pl.reader).host) = [] ∧
    sendsOf (added h (Throwing.OnCustomPacketReceive h p 1001 pl.reader).host) = [] := by
  have hr : pl.reader.Read_uint32 0 = Except.error DecodeError.truncated := by
    have hn : ¬ (4 ≤ pl.readable) := by omega
    simp [Payload.reader, hn]
  rw [throwing_ping_raised h p pl.reader DecodeError.truncated hr]
  have ha : added h (h.record (Event.read_uint32 0)) = [Event.read_uint32 0] :=
    added_append h _ _ rfl
  refine ⟨hr, rfl, rfl, ha, ?_, ?_, ?_⟩
  · show logsOf (added h (h.record (Event.read_uint32 0))) = []
    rw [ha]; rfl
  · show createsOf (added h (h.record (Event.read_uint32 0))) = []
    rw [ha]; rfl
  · show sendsOf (added h (h.record (Event.read_uint32 0))) = []
    rw [ha]; rfl

theorem truncated_ping_decode_error_witness :
    shortPayload.readable < 4 ∧
    shortPayload.reader.Read_uint32 0 = Except.error DecodeError.truncated ∧
    (Throwing.OnCustomPacketReceive host0 alice 1001 shortPayload.reader).raised =
      some DecodeError.truncated ∧
    (Throwing.OnCustomPacketReceive host0 alice 1001 shortPayload.reader).host.now =
      host0.now ∧
    added host0 (Throwing.OnCustomPacketReceive host0 alice 1001 shortPayload.reader).host =
      [Event.read_uint32 0] ∧
    logsOf (added host0
      (Throwing.OnCustomPacketReceive host0 alice 1001 shortPayload.reader).host) = [] ∧
    createsOf (added host0
      (Throwing.OnCustomPacketReceive host0 alice 1001 shortPayload.reader).host) = [] ∧
    sendsOf (added host0
      (Throwing.OnCustomPacketReceive host0 alice 1001 shortPayload.reader).host) = [] :=
  ⟨by decide, truncated_ping_decode_error host0 alice shortPayload (by decide)⟩

/-- C8: for an echo whose payload holds no decodable string the read returns the empty
string it was given as fallback and raises nothing; the call ends without an error and
sends exactly one response, tagged 2002, whose only field is the string
"Server received: ". -/
theorem absent_string_echo (h : Host) (p : Player) (pl : Payload)
    (habsent : pl.str = none) :
    (Throwing.ReadString h pl.reader "").1 = Except.ok "" ∧
    (Throwing.OnCustomPacketReceive h p 1002 pl.reader).raised = none ∧
    createsOf (added h (Throwing.OnCustomPacketReceive h p 1002 pl.reader).host) = [2002] ∧
    sendsOf (added h (Throwing.OnCustomPacketReceive h p 1002 pl.reader).host) =
      [(p, ⟨2002, [Field.str "Server received: "]⟩)] := by
  have hr : pl.reader.ReadString "" = Except.ok "" := by
    simp [Payload.reader, habsent]
  have hb := throwing_echo_returned h p pl.reader ⟨fun _ => 0, fun _ => ""⟩ hr
  rw [hb]
  refine ⟨by simp [Throwing.ReadString, hr], rfl, ?_, ?_⟩
  · show createsOf (added h (OnCustomPacketReceive h p 1002 _)) = _
    rw [added_echo]
    simp [createsOf]
  · show sendsOf (added h (OnCustomPacketReceive h p 1002 _)) = _
    rw [added_echo]
    simp [sendsOf]

theorem absent_string_echo_witness :
    emptyPayload.str = none ∧
    (Throwing.ReadString host0 emptyPayload.reader "").1 = Except.ok "" ∧
    (Throwing.OnCustomPacketReceive host0 alice 1002 emptyPayload.reader).raised = none ∧
    createsOf (added host0
      (Throwing.OnCustomPacketReceive host0 alice 1002 emptyPayload.reader).host) = [2002] ∧
    sendsOf (added host0
      (Throwing.OnCustomPacketReceive host0 alice 1002 emptyPayload.reader).host) =
      [(alice, ⟨2002, [Field.str "Server received: "]⟩)] :=
  ⟨rfl, absent_string_echo host0 alice emptyPayload rfl⟩

end CustomPacketsDemo
